import Mathlib

/-!
Shallow embedding of the slog-rs/envlogger directive-parsing and level-filtering
engine (`src/lib.rs`), together with theorems checking the specification's claims.

Strings are handled through their character lists so that every operation is a
structural recursion (`String` in this Lean version is a structure over `List Char`),
mirroring the behaviour of the Rust code on well-formed UTF-8 input.
-/

namespace EnvLog

/-- Modelled from the spec: the event severity type (`slog::Level`, a dependency
external to this repository). An ordered enumeration; `as_usize` gives its numeric
rank, aligned with the ranks of `FilterLevel` below (an event level is never `Off`,
so its ranks start at 1). -/
inductive Level where
  | Error
  | Warning
  | Info
  | Debug
  | Trace
deriving DecidableEq

def Level.as_usize : Level → Nat
  | Level.Error => 1
  | Level.Warning => 2
  | Level.Info => 3
  | Level.Debug => 4
  | Level.Trace => 5

/-- Modelled from the spec: the verbosity-ceiling type (`slog::FilterLevel`, a
dependency external to this repository): an ordered enumeration where `Off` is the
minimum (permits nothing) and `Trace` the maximum (permits everything). -/
inductive FilterLevel where
  | Off
  | Error
  | Warning
  | Info
  | Debug
  | Trace
deriving DecidableEq

def FilterLevel.as_usize : FilterLevel → Nat
  | FilterLevel.Off => 0
  | FilterLevel.Error => 1
  | FilterLevel.Warning => 2
  | FilterLevel.Info => 3
  | FilterLevel.Debug => 4
  | FilterLevel.Trace => 5

/-- `FilterLevel::max()` is `Trace`. -/
def FilterLevel.max : FilterLevel := FilterLevel.Trace

def FilterLevel.fromUsize : Nat → Option FilterLevel
  | 0 => some FilterLevel.Off
  | 1 => some FilterLevel.Error
  | 2 => some FilterLevel.Warning
  | 3 => some FilterLevel.Info
  | 4 => some FilterLevel.Debug
  | 5 => some FilterLevel.Trace
  | _ => none

/-- Character-list version of Rust's `str::split(sep)`: splits at every occurrence
of `sep`, keeping empty pieces, and always yields at least one piece. -/
def splitCharList (sep : Char) : List Char → List (List Char)
  | [] => [[]]
  | c :: cs =>
    if c = sep then [] :: splitCharList sep cs
    else
      match splitCharList sep cs with
      | [] => [[c]]
      | h :: t => (c :: h) :: t

/-- Embedding of Rust's `str::split(sep)` over `String`. -/
def strSplit (sep : Char) (s : String) : List String :=
  (splitCharList sep s.data).map String.mk

def trimChars (l : List Char) : List Char :=
  ((l.dropWhile Char.isWhitespace).reverse.dropWhile Char.isWhitespace).reverse

/-- Embedding of Rust's `str::trim`. -/
def strTrim (s : String) : String := String.mk (trimChars s.data)

/-- Embedding of Rust's `str::starts_with`: for valid UTF-8, byte-prefix and
character-prefix coincide. -/
def strStartsWith (s p : String) : Bool := p.data.isPrefixOf s.data

/-- Embedding of Rust's `str::parse::<usize>()` on a character list (decimal
digits only). -/
def charsToNat? (l : List Char) : Option Nat :=
  if l ≠ [] ∧ l.all Char.isDigit then
    some (l.foldl (fun n c => n * 10 + (c.toNat - 48)) 0)
  else none

/-- Modelled from the spec: parsing a `FilterLevel` (slog's `FromStr`, a dependency
external to this repository): accepts a level name case-insensitively
(`off`, `error`, `warn`, `info`, `debug`, `trace` per the spec's grammar) or an
integer rank. -/
def FilterLevel.fromStr (s : String) : Option FilterLevel :=
  let low : String := String.mk (s.data.map Char.toLower)
  if low = "off" then some FilterLevel.Off
  else if low = "error" then some FilterLevel.Error
  else if low = "warn" then some FilterLevel.Warning
  else if low = "info" then some FilterLevel.Info
  else if low = "debug" then some FilterLevel.Debug
  else if low = "trace" then some FilterLevel.Trace
  else (charsToNat? s.data).bind FilterLevel.fromUsize

/-- Substring containment on character lists (used by the plain-string filter). -/
def listContainsSub (p : List Char) : List Char → Bool
  | [] => p.isPrefixOf []
  | c :: rest => p.isPrefixOf (c :: rest) || listContainsSub p rest

/-- Modelled from the spec: the message content filter. The filter module
(`src/regex.rs` / `src/string.rs`) is not present under `src/`; following §4.5 of
the spec this is the plain-substring variant, which stores the original pattern
string. -/
structure Filter where
  pattern : String
deriving DecidableEq

/-- Modelled from the spec: `is_match` of the plain-substring variant is literal
substring containment. -/
def Filter.is_match (f : Filter) (text : String) : Bool :=
  listContainsSub f.pattern.data text.data

/-- Modelled from the spec: construction of the plain-substring filter from the
pattern string never fails. -/
def Filter.new (p : String) : Except String Filter := Except.ok { pattern := p }

/-- `LogDirective` from `src/lib.rs`. -/
structure LogDirective where
  name : Option String
  level : FilterLevel
deriving DecidableEq

/-- The sort key used by `LogBuilder::build`:
`a.name.as_ref().map(|a| a.len()).unwrap_or(0)`. -/
def dirLen (d : LogDirective) : Nat :=
  match d.name with
  | some n => n.length
  | none => 0

/-- The comparison `alen.cmp(&blen)` used by `LogBuilder::build`, as a relation. -/
def dirLenLe (a c : LogDirective) : Prop := dirLen a ≤ dirLen c

instance : DecidableRel dirLenLe :=
  fun a c => inferInstanceAs (Decidable (dirLen a ≤ dirLen c))

instance : IsTotal LogDirective dirLenLe := ⟨fun a c => Nat.le_total (dirLen a) (dirLen c)⟩

instance : IsTrans LogDirective dirLenLe := ⟨fun _ _ _ h1 h2 => Nat.le_trans h1 h2⟩

/-- Whether a directive applies to a module path: its name is a string prefix of the
module path, or it is the global (`None`) directive. -/
def LogDirective.applies (d : LogDirective) (m : String) : Bool :=
  match d.name with
  | some n => strStartsWith m n
  | none => true

/-- An event record, reduced to the fields the engine inspects (`slog::Record` is an
external collaborator): severity level, module path, and rendered message. -/
structure Record where
  level : Level
  module : String
  msg : String

/-- A nested sink (`slog::Drain` with `Ok = ()`), embedded as a state-passing log
function: the effects of a call are captured in the state `σ`, errors in `ε`. -/
abbrev Drain (σ ε : Type) : Type := σ → Record → σ × Except ε Unit

/-- `EnvLogger` from `src/lib.rs`. -/
structure EnvLogger (T : Type) where
  drain : T
  directives : List LogDirective
  filter : Option Filter

/-- `LogBuilder` from `src/lib.rs`. -/
structure LogBuilder (T : Type) where
  drain : T
  directives : List LogDirective
  filter : Option Filter

/-- `LogBuilder::new` from `src/lib.rs`. -/
def LogBuilder.new {T : Type} (d : T) : LogBuilder T :=
  { drain := d, directives := [], filter := none }

/-- The body of the token loop of `parse_logging_spec` in `src/lib.rs`: the
directive contributed by one comma-separated token (`none` when the token is empty
or malformed, i.e. the loop executes `continue` and pushes nothing). -/
def parseToken (s : String) : Option LogDirective :=
  if s.length = 0 then none
  else
    match strSplit '=' s with
    | [part0] =>
      match FilterLevel.fromStr part0 with
      | some num => some { name := none, level := num }
      | none => some { name := some part0, level := FilterLevel.max }
    | [part0, part1] =>
      if strTrim part1 = "" then some { name := some part0, level := FilterLevel.max }
      else
        match FilterLevel.fromStr (strTrim part1) with
        | some num => some { name := some part0, level := num }
        | none => none
    | _ => none

/-- `parse_logging_spec` from `src/lib.rs`. -/
def parse_logging_spec (s : String) : List LogDirective × Option Filter :=
  match strSplit '/' s with
  | [mods] => ((strSplit ',' mods).filterMap parseToken, none)
  | [mods, fil] =>
    ((strSplit ',' mods).filterMap parseToken,
      match Filter.new fil with
      | Except.ok re => some re
      | Except.error _ => none)
  | _ => ([], none)

/-- `LogBuilder::parse` from `src/lib.rs`: replaces the stored filter and appends
the parsed directives. -/
def LogBuilder.parse {T : Type} (b : LogBuilder T) (filters : String) : LogBuilder T :=
  { b with
    filter := (parse_logging_spec filters).2,
    directives := b.directives ++ (parse_logging_spec filters).1 }

/-- `LogBuilder::build` from `src/lib.rs`: installs the default `(None, Error)`
directive when none was accumulated, otherwise stable-sorts the directives by name
length (`Vec::sort_by` is a stable sort; a stable sort by a total preorder is
uniquely determined, realised here by insertion sort). -/
def LogBuilder.build {T : Type} (b : LogBuilder T) : EnvLogger T :=
  if b.directives.isEmpty then
    { drain := b.drain,
      directives := [{ name := none, level := FilterLevel.Error }],
      filter := b.filter }
  else
    { drain := b.drain,
      directives := b.directives.insertionSort dirLenLe,
      filter := b.filter }

/-- The reverse scan inside `EnvLogger::enabled`, on an already-reversed list:
skip named directives whose name is not a prefix of the module path; at the first
remaining directive return `level <= directive.level`. -/
def enabledScan (level : Level) (m : String) : List LogDirective → Bool
  | [] => false
  | d :: rest =>
    match d.name with
    | some n =>
      if strStartsWith m n then decide (level.as_usize ≤ d.level.as_usize)
      else enabledScan level m rest
    | none => decide (level.as_usize ≤ d.level.as_usize)

/-- `EnvLogger::enabled` from `src/lib.rs`. -/
def EnvLogger.enabled {T : Type} (l : EnvLogger T) (level : Level) (m : String) : Bool :=
  enabledScan level m l.directives.reverse

/-- Per-call mutable context of `EnvLogger::log`: the nested sink's state plus the
calling thread's scratch buffer `TL_BUF`. -/
structure LogState (σ : Type) where
  world : σ
  tl_buf : String
deriving DecidableEq

/-- `EnvLogger::log` (the `Drain` impl in `src/lib.rs`), with the thread-local
buffer `TL_BUF` made explicit in the state: early return on a disabled level, early
return on a filter mismatch (the message is rendered by `format!` into a fresh
string), otherwise borrow the scratch buffer, call the nested drain, clear the
buffer and return the drain's result. -/
def EnvLogger.log {σ ε : Type} (l : EnvLogger (Drain σ ε)) (st : LogState σ)
    (r : Record) : LogState σ × Except ε Unit :=
  if !(EnvLogger.enabled l r.level r.module) then (st, Except.ok ())
  else if (match l.filter with
           | some f => !(Filter.is_match f r.msg)
           | none => false) then (st, Except.ok ())
  else
    let p := l.drain st.world r
    ({ world := p.1, tl_buf := "" }, p.2)

/-! Concrete instances used by the witnesses below; the directive sets mirror the
repository's own test suite (`filter_beginning_longest_match`, `no_match`,
`zero_level`). -/

def builderC1 : LogBuilder Unit :=
  { drain := (), filter := none,
    directives := [ { name := some "crate2", level := FilterLevel.Info },
                    { name := some "crate2::mod", level := FilterLevel.Debug },
                    { name := some "crate1::mod1", level := FilterLevel.Warning } ] }

def dirC1 : LogDirective := { name := some "crate2::mod", level := FilterLevel.Debug }

def builderC2 : LogBuilder Unit :=
  { drain := (), filter := none,
    directives := [ { name := some "crate1::mod1", level := FilterLevel.Warning },
                    { name := none, level := FilterLevel.Info } ] }

def drainW : Drain Nat Unit := fun n _ => (n + 1, Except.ok ())

def envLoggerC3 : EnvLogger (Drain Nat Unit) :=
  { drain := drainW,
    directives := [ { name := none, level := FilterLevel.Info } ],
    filter := some { pattern := "x" } }

def recC3 : Record := { level := Level.Debug, module := "m", msg := "hello" }

def builderC4 : LogBuilder Unit :=
  { drain := (), filter := none,
    directives := [ { name := some "crate2", level := FilterLevel.Info },
                    { name := some "crate1::mod1", level := FilterLevel.Warning } ] }

def envLoggerC4 : EnvLogger Unit := builderC4.build

def builderC8 : LogBuilder Unit :=
  { drain := (), filter := none,
    directives := [ { name := none, level := FilterLevel.Info },
                    { name := some "crate1::mod1", level := FilterLevel.Off } ] }

def dirC8 : LogDirective := { name := some "crate1::mod1", level := FilterLevel.Off }

def envLoggerC9 : EnvLogger (Drain Nat Unit) :=
  { drain := drainW,
    directives := [ { name := none, level := FilterLevel.Info } ],
    filter := some { pattern := "abc" } }

def recC9 : Record := { level := Level.Debug, module := "m", msg := "abc here" }

def builderC10 : LogBuilder Unit := LogBuilder.new ()

/-! Helper lemmas about the split, scan and sort primitives. -/

theorem string_eq_empty_of_data (s : String) (h : s.data = []) : s = "" := by
  cases s with
  | mk d => cases h; rfl

theorem string_mk_data (s : String) : String.mk s.data = s := rfl

theorem splitCharList_ne_nil (sep : Char) (l : List Char) : splitCharList sep l ≠ [] := by
  cases l with
  | nil => simp [splitCharList]
  | cons c cs =>
    simp only [splitCharList]
    split
    · simp
    · split <;> simp

theorem splitCharList_length (sep : Char) :
    ∀ l : List Char, (splitCharList sep l).length = l.count sep + 1
  | [] => by simp [splitCharList]
  | c :: cs => by
    simp only [splitCharList]
    split
    · rename_i hc
      simp [List.count_cons, hc, splitCharList_length sep cs]
    · rename_i hc
      split
      · rename_i hnil
        exact absurd hnil (splitCharList_ne_nil sep cs)
      · rename_i h t hht
        have hrec := splitCharList_length sep cs
        rw [hht] at hrec
        have hcb : (c == sep) = false := by simp [hc]
        simp [List.count_cons, hcb, List.length_cons] at hrec ⊢
        omega

theorem splitCharList_of_count_zero (sep : Char) :
    ∀ l : List Char, l.count sep = 0 → splitCharList sep l = [l]
  | [], _ => rfl
  | c :: cs, h => by
    rw [List.count_cons] at h
    by_cases hcb : c == sep
    · simp [hcb] at h
    · have hc : ¬ c = sep := by simpa using hcb
      have hcbf : (c == sep) = false := by simpa using hcb
      have hcs : cs.count sep = 0 := by rw [hcbf] at h; simpa using h
      simp only [splitCharList, if_neg hc, splitCharList_of_count_zero sep cs hcs]

theorem strSplit_length (sep : Char) (s : String) :
    (strSplit sep s).length = s.data.count sep + 1 := by
  simp [strSplit, splitCharList_length]

theorem strSplit_of_count_zero (sep : Char) (s : String) (h : s.data.count sep = 0) :
    strSplit sep s = [s] := by
  simp [strSplit, splitCharList_of_count_zero sep s.data h, string_mk_data]

theorem enabledScan_cons (level : Level) (m : String) (a : LogDirective)
    (rest : List LogDirective) :
    enabledScan level m (a :: rest) =
      if a.applies m then decide (level.as_usize ≤ a.level.as_usize)
      else enabledScan level m rest := by
  cases h : a.name with
  | none => simp [enabledScan, LogDirective.applies, h]
  | some n => simp [enabledScan, LogDirective.applies, h]

theorem enabledScan_all_skip (level : Level) (m : String) :
    ∀ l : List LogDirective, (∀ d ∈ l, d.applies m = false) →
      enabledScan level m l = false
  | [], _ => rfl
  | a :: rest, h => by
    rw [enabledScan_cons, if_neg]
    · exact enabledScan_all_skip level m rest fun d hd => h d (List.mem_cons_of_mem a hd)
    · simp [h a (List.mem_cons_self a rest)]

theorem enabledScan_longest (level : Level) (m : String) (d : LogDirective)
    (l : List LogDirective) :
    l.Pairwise (fun a c => dirLen c ≤ dirLen a) →
    d ∈ l → d.applies m = true →
    (∀ d' ∈ l, d'.applies m = true → dirLen d' ≤ dirLen d) →
    (∀ d' ∈ l, d'.applies m = true → dirLen d' = dirLen d → d'.level = d.level) →
    enabledScan level m l = decide (level.as_usize ≤ d.level.as_usize) := by
  induction l with
  | nil => intro _ hmem _ _ _; cases hmem
  | cons a rest ih =>
    intro hpw hmem happ hmax htie
    rw [enabledScan_cons]
    by_cases ha : a.applies m = true
    · rw [if_pos ha]
      have hlev : a.level = d.level := by
        rcases List.mem_cons.mp hmem with h | h
        · rw [h]
        · have h1 : dirLen a ≤ dirLen d := hmax a (List.mem_cons_self a rest) ha
          have h2 : dirLen d ≤ dirLen a := (List.pairwise_cons.mp hpw).1 d h
          exact htie a (List.mem_cons_self a rest) ha (Nat.le_antisymm h1 h2)
      rw [hlev]
    · rw [if_neg ha]
      have hd : d ∈ rest := by
        rcases List.mem_cons.mp hmem with h | h
        · subst h; exact absurd happ ha
        · exact h
      exact ih (List.pairwise_cons.mp hpw).2 hd happ
        (fun d' h' ha' => hmax d' (List.mem_cons_of_mem a h') ha')
        (fun d' h' ha' he => htie d' (List.mem_cons_of_mem a h') ha' he)

theorem build_sorted {T : Type} (b : LogBuilder T) :
    ((b.build).directives).Pairwise dirLenLe := by
  by_cases h : b.directives.isEmpty
  · simp [LogBuilder.build, h]
  · simp only [LogBuilder.build, h, Bool.false_eq_true, if_false]
    exact List.sorted_insertionSort dirLenLe b.directives

theorem build_ne_nil {T : Type} (b : LogBuilder T) : (b.build).directives ≠ [] := by
  by_cases h : b.directives.isEmpty
  · simp [LogBuilder.build, h]
  · simp only [LogBuilder.build, h, Bool.false_eq_true, if_false]
    intro hnil
    have hperm := List.perm_insertionSort dirLenLe b.directives
    rw [hnil] at hperm
    have : b.directives = [] := hperm.symm.eq_nil
    rw [this] at h
    exact h rfl

theorem filter_orderedInsert (k : Nat) (d : LogDirective) :
    ∀ L : List LogDirective,
      (List.orderedInsert dirLenLe d L).filter (fun x => decide (dirLen x = k)) =
        if dirLen d = k then
          d :: L.filter (fun x => decide (dirLen x = k))
        else L.filter (fun x => decide (dirLen x = k))
  | [] => by
    by_cases hk : dirLen d = k <;> simp [List.orderedInsert, List.filter, hk]
  | b :: L => by
    simp only [List.orderedInsert]
    by_cases hr : dirLenLe d b
    · rw [if_pos hr]
      by_cases hk : dirLen d = k <;> by_cases hbk : dirLen b = k <;>
        simp [List.filter_cons, hk, hbk]
    · rw [if_neg hr]
      by_cases hk : dirLen d = k <;> by_cases hbk : dirLen b = k
      · exact absurd (show dirLenLe d b from by unfold dirLenLe; omega) hr
      · simp [List.filter_cons, filter_orderedInsert k d L, hk, hbk]
      · simp [List.filter_cons, filter_orderedInsert k d L, hk, hbk]
      · simp [List.filter_cons, filter_orderedInsert k d L, hk, hbk]

theorem filter_insertionSort (k : Nat) :
    ∀ l : List LogDirective,
      (l.insertionSort dirLenLe).filter (fun x => decide (dirLen x = k)) =
        l.filter (fun x => decide (dirLen x = k))
  | [] => rfl
  | d :: l => by
    simp only [List.insertionSort, filter_orderedInsert, filter_insertionSort k l,
      List.filter_cons]
    by_cases hk : dirLen d = k <;> simp [hk]

theorem Level.one_le_as_usize (level : Level) : 1 ≤ level.as_usize := by
  cases level <;> simp [Level.as_usize]

theorem parseToken_one (s p0 : String) (hne : s ≠ "")
    (hsp : strSplit '=' s = [p0]) :
    parseToken s =
      match FilterLevel.fromStr p0 with
      | some num => some { name := none, level := num }
      | none => some { name := some p0, level := FilterLevel.max } := by
  have hl : ¬ s.length = 0 := by
    intro h0
    exact hne (string_eq_empty_of_data s (List.length_eq_zero.mp h0))
  unfold parseToken
  rw [if_neg hl, hsp]

theorem parseToken_two (s p0 p1 : String) (hsp : strSplit '=' s = [p0, p1]) :
    parseToken s =
      if strTrim p1 = "" then some { name := some p0, level := FilterLevel.max }
      else
        match FilterLevel.fromStr (strTrim p1) with
        | some num => some { name := some p0, level := num }
        | none => none := by
  have hl : ¬ s.length = 0 := by
    intro h0
    have hd : s.data = [] := List.length_eq_zero.mp h0
    have h1 : strSplit '=' s = [String.mk []] := by
      unfold strSplit
      rw [hd]
      rfl
    rw [h1] at hsp
    simp at hsp
  unfold parseToken
  rw [if_neg hl, hsp]

/-! The claim theorems. -/

/-- C1: for a resolver built by `LogBuilder::build`, whenever some directive `d`
applies to the module path (its module prefix is a string prefix of the path, or it
is the global `None` directive) and `d` is the most specific applicable directive —
of maximal module-prefix length among the applicable ones, all applicable
directives of that maximal length carrying the same level (in particular when the
longest applicable directive is unique) — then `enabled(level, module)` returns
`true` iff `level <= d.level` in the `FilterLevel` order. -/
theorem c1_enabled_longest_match {T : Type} (b : LogBuilder T) (level : Level)
    (m : String) (d : LogDirective)
    (hmem : d ∈ (b.build).directives) (happ : d.applies m = true)
    (hmax : ∀ d' ∈ (b.build).directives, d'.applies m = true → dirLen d' ≤ dirLen d)
    (htie : ∀ d' ∈ (b.build).directives, d'.applies m = true →
      dirLen d' = dirLen d → d'.level = d.level) :
    ((b.build).enabled level m = true) ↔ level.as_usize ≤ d.level.as_usize := by
  have hpw : ((b.build).directives.reverse).Pairwise (fun a c => dirLen c ≤ dirLen a) :=
    List.pairwise_reverse.mpr (build_sorted b)
  have hscan := enabledScan_longest level m d ((b.build).directives.reverse) hpw
    (List.mem_reverse.mpr hmem) happ
    (fun d' h' => hmax d' (List.mem_reverse.mp h'))
    (fun d' h' => htie d' (List.mem_reverse.mp h'))
  unfold EnvLogger.enabled
  rw [hscan]
  simp

/-- Witness for C1, at the repository's own `filter_beginning_longest_match`
example: directives `{crate2: Info, crate2::mod: Debug, crate1::mod1: Warning}`,
module `crate2::mod1`, event level `Debug`. -/
theorem c1_enabled_longest_match_witness :
    (builderC1.build).enabled Level.Debug "crate2::mod1" = true :=
  (c1_enabled_longest_match builderC1 Level.Debug "crate2::mod1" dirC1
    (by decide) (by decide) (by decide) (by decide)).mpr (by decide)

/-- C2: `LogBuilder::build` with an empty accumulated directive list yields exactly
the fallback directive `(None, Error)`; with a non-empty list it yields the
accumulated directives stable-sorted ascending by module-prefix string length
(`None` counting as length 0): a permutation of the input, sorted by `dirLenLe`
(so the global/default directive comes first and the longest prefixes last), that
preserves for every length `k` the exact subsequence of directives of length `k`
(stability). -/
theorem c2_build_sorts_directives {T : Type} (b : LogBuilder T) :
    (b.directives = [] →
      (b.build).directives = [{ name := none, level := FilterLevel.Error }]) ∧
    (b.directives ≠ [] →
      (b.build).directives.Perm b.directives ∧
      (b.build).directives.Pairwise dirLenLe ∧
      ∀ k : Nat, (b.build).directives.filter (fun x => decide (dirLen x = k)) =
        b.directives.filter (fun x => decide (dirLen x = k))) := by
  constructor
  · intro h
    simp [LogBuilder.build, h]
  · intro h
    have hne : b.directives.isEmpty = false := by
      cases hd : b.directives with
      | nil => exact absurd hd h
      | cons a t => rfl
    refine ⟨?_, build_sorted b, ?_⟩
    · simp only [LogBuilder.build, hne, Bool.false_eq_true, if_false]
      exact List.perm_insertionSort dirLenLe b.directives
    · intro k
      simp only [LogBuilder.build, hne, Bool.false_eq_true, if_false]
      exact filter_insertionSort k b.directives

/-- Witness for C2 on a non-empty builder whose directives arrive in unsorted
order. -/
theorem c2_build_sorts_directives_witness :
    builderC2.directives ≠ [] ∧
    (builderC2.build).directives.Perm builderC2.directives :=
  ⟨by decide, ((c2_build_sorts_directives builderC2).2 (by decide)).1⟩

/-- C8: if the most specific directive matching a module path has level
`FilterLevel::Off`, then `enabled` is `false` for that module at every event
severity level. -/
theorem c8_off_disables {T : Type} (b : LogBuilder T) (level : Level) (m : String)
    (d : LogDirective)
    (hmem : d ∈ (b.build).directives) (happ : d.applies m = true)
    (hmax : ∀ d' ∈ (b.build).directives, d'.applies m = true → dirLen d' ≤ dirLen d)
    (htie : ∀ d' ∈ (b.build).directives, d'.applies m = true →
      dirLen d' = dirLen d → d'.level = d.level)
    (hoff : d.level = FilterLevel.Off) :
    (b.build).enabled level m = false := by
  have hpw : ((b.build).directives.reverse).Pairwise (fun a c => dirLen c ≤ dirLen a) :=
    List.pairwise_reverse.mpr (build_sorted b)
  have hscan := enabledScan_longest level m d ((b.build).directives.reverse) hpw
    (List.mem_reverse.mpr hmem) happ
    (fun d' h' => hmax d' (List.mem_reverse.mp h'))
    (fun d' h' => htie d' (List.mem_reverse.mp h'))
  unfold EnvLogger.enabled
  rw [hscan, hoff]
  have h1 := Level.one_le_as_usize level
  simp [FilterLevel.as_usize]
  omega

/-- Witness for C8, at the repository's own `zero_level` example: directives
`{None: Info, crate1::mod1: Off}` disable `crate1::mod1` even at `Error`, while
`crate2::mod2` is still allowed at `Info`. -/
theorem c8_off_disables_witness :
    (builderC8.build).enabled Level.Error "crate1::mod1" = false ∧
    (builderC8.build).enabled Level.Info "crate2::mod2" = true :=
  ⟨c8_off_disables builderC8 Level.Error "crate1::mod1" dirC8
      (by decide) (by decide) (by decide) (by decide) rfl,
   by decide⟩

/-- C3: `EnvLogger::log` drops silently — returns `Ok(())` with the whole state
(nested sink state and scratch buffer) untouched — when the level/module gate
rejects the event, or when a content filter is installed and its `is_match` on the
rendered message is `false`; otherwise it invokes the nested drain exactly once on
the event and returns that drain's result unchanged, so a dropped event is
indistinguishable from an accepted one for the caller. -/
theorem c3_log_drop_or_forward {σ ε : Type} (l : EnvLogger (Drain σ ε))
    (st : LogState σ) (r : Record) :
    (l.enabled r.level r.module = false → l.log st r = (st, Except.ok ())) ∧
    (∀ f, l.filter = some f → f.is_match r.msg = false →
      l.log st r = (st, Except.ok ())) ∧
    (l.enabled r.level r.module = true →
      (∀ f, l.filter = some f → f.is_match r.msg = true) →
      l.log st r = ({ world := (l.drain st.world r).1, tl_buf := "" },
                    (l.drain st.world r).2)) := by
  refine ⟨?_, ?_, ?_⟩
  · intro h
    simp [EnvLogger.log, h]
  · intro f hf hm
    cases hb : l.enabled r.level r.module with
    | false => simp [EnvLogger.log, hb]
    | true => simp [EnvLogger.log, hb, hf, hm]
  · intro he hm
    have hmf : (match l.filter with
                | some f => !(Filter.is_match f r.msg)
                | none => false) = false := by
      cases hf : l.filter with
      | none => rfl
      | some f => simp [hm f hf]
    simp [EnvLogger.log, he, hmf]

/-- Witness for C3: an event disabled by level is dropped with `Ok(())` and the
sink state untouched. -/
theorem c3_log_drop_or_forward_witness :
    envLoggerC3.enabled recC3.level recC3.module = false ∧
    envLoggerC3.log { world := 0, tl_buf := "b" } recC3 =
      ({ world := 0, tl_buf := "b" }, Except.ok ()) :=
  ⟨by decide,
   (c3_log_drop_or_forward envLoggerC3 { world := 0, tl_buf := "b" } recC3).1 (by decide)⟩

/-- C4 counterexample: a builder-produced resolver with a non-empty directive list
for which the scan still finds no matching directive on module `crate3` — so
`enabled` returns `false` with two directives present. This refutes the claim's
"this no-match case can only happen if the directive list is empty" (the
repository's own `no_match` test exercises the same situation). -/
theorem c4_counterexample :
    envLoggerC4.directives =
      [ { name := some "crate2", level := FilterLevel.Info },
        { name := some "crate1::mod1", level := FilterLevel.Warning } ] ∧
    LogDirective.applies { name := some "crate2", level := FilterLevel.Info }
      "crate3" = false ∧
    LogDirective.applies { name := some "crate1::mod1", level := FilterLevel.Warning }
      "crate3" = false ∧
    envLoggerC4.enabled Level.Warning "crate3" = false := by decide

/-- C4 amended: `enabled(level, module)` returns `false` when no directive applies
(no module-prefix match and no global `None` directive), and the builder does
guarantee a non-empty directive list; however the no-match case is not restricted
to the empty list — it also occurs for any non-empty list in which no directive is
global and no prefix matches. -/
theorem c4_no_match_disabled {T : Type} (e : EnvLogger T) (b : LogBuilder T)
    (level : Level) (m : String)
    (h : ∀ d ∈ e.directives, d.applies m = false) :
    e.enabled level m = false ∧ (b.build).directives ≠ [] := by
  constructor
  · unfold EnvLogger.enabled
    exact enabledScan_all_skip level m _ fun d hd => h d (List.mem_reverse.mp hd)
  · exact build_ne_nil b

/-- Witness for C4 (amended) on the `no_match` directive set. -/
theorem c4_no_match_disabled_witness :
    (∀ d ∈ envLoggerC4.directives, d.applies "crate3" = false) ∧
    envLoggerC4.enabled Level.Warning "crate3" = false ∧
    (builderC4.build).directives ≠ [] := by
  refine ⟨by decide, ?_, ?_⟩
  · exact (c4_no_match_disabled envLoggerC4 builderC4 Level.Warning "crate3" (by decide)).1
  · exact (c4_no_match_disabled envLoggerC4 builderC4 Level.Warning "crate3" (by decide)).2

/-- C9 counterexample: a `log` call that exits through the disabled-by-level early
return leaves the thread-local scratch buffer exactly as it was — here non-empty —
so the buffer is not rendered into and not cleared on that exit path, refuting
"clears that buffer before returning, on every exit path". -/
theorem c9_counterexample :
    (envLoggerC9.log { world := 0, tl_buf := "junk" } recC9).1.tl_buf = "junk" ∧
    ("junk" : String) ≠ "" :=
  ⟨by decide, by decide⟩

/-- C9 amended: `EnvLogger::log` leaves the thread-local scratch buffer untouched
on both early-return paths (disabled by level, and content-filter mismatch — the
filter-check message is rendered into a fresh temporary string, not into the
scratch buffer), and only on the forwarding path does it borrow the buffer around
the nested drain call and clear it before returning. -/
theorem c9_buffer_behavior {σ ε : Type} (l : EnvLogger (Drain σ ε))
    (st : LogState σ) (r : Record) :
    (l.enabled r.level r.module = false → (l.log st r).1.tl_buf = st.tl_buf) ∧
    (∀ f, l.filter = some f → f.is_match r.msg = false →
      (l.log st r).1.tl_buf = st.tl_buf) ∧
    (l.enabled r.level r.module = true →
      (∀ f, l.filter = some f → f.is_match r.msg = true) →
      (l.log st r).1.tl_buf = "") := by
  refine ⟨?_, ?_, ?_⟩
  · intro h
    simp [EnvLogger.log, h]
  · intro f hf hm
    cases hb : l.enabled r.level r.module with
    | false => simp [EnvLogger.log, hb]
    | true => simp [EnvLogger.log, hb, hf, hm]
  · intro he hm
    have hmf : (match l.filter with
                | some f => !(Filter.is_match f r.msg)
                | none => false) = false := by
      cases hf : l.filter with
      | none => rfl
      | some f => simp [hm f hf]
    simp [EnvLogger.log, he, hmf]

/-- Witness for C9 (amended): the disabled-by-level early return keeps the buffer
contents. -/
theorem c9_buffer_behavior_witness :
    envLoggerC9.enabled recC9.level recC9.module = false ∧
    (envLoggerC9.log { world := 1, tl_buf := "kept" } recC9).1.tl_buf = "kept" :=
  ⟨by decide,
   (c9_buffer_behavior envLoggerC9 { world := 1, tl_buf := "kept" } recC9).1 (by decide)⟩

/-- C5: any specification string containing two or more '/' characters (equivalently
three or more '/'-separated segments) makes `parse_logging_spec` return an empty
directive list and no filter, regardless of the segments' contents — nothing from
the first segment is partially applied. -/
theorem c5_too_many_slashes (s : String) (h : 2 ≤ s.data.count '/') :
    parse_logging_spec s = ([], none) := by
  have hlen : 3 ≤ (strSplit '/' s).length := by
    rw [strSplit_length]
    omega
  unfold parse_logging_spec
  rcases hsp : strSplit '/' s with _ | ⟨a, _ | ⟨c, _ | ⟨u, t3⟩⟩⟩
  · simp [hsp] at hlen
  · simp [hsp] at hlen
  · simp [hsp] at hlen
  · rfl

/-- Witness for C5 at the spec's own example `"a/b/c"`. -/
theorem c5_too_many_slashes_witness :
    2 ≤ "a/b/c".data.count '/' ∧ parse_logging_spec "a/b/c" = ([], none) :=
  ⟨by decide, c5_too_many_slashes "a/b/c" (by decide)⟩

/-- C6: a comma-separated token containing two or more '=' characters contributes no
directive, and so does a token whose part after '=' is non-empty after trimming but
fails to parse as a `FilterLevel`, while well-formed tokens still contribute their
directives; in particular `"crate1::mod1=warn=info,crate2=debug"` and
`"crate1::mod1=noNumber,crate2=debug"` each parse to exactly the single directive
`(crate2, Debug)` and no filter. -/
theorem c6_malformed_tokens_dropped :
    (∀ s : String, 2 ≤ s.data.count '=' → parseToken s = none) ∧
    (∀ s p0 p1 : String, strSplit '=' s = [p0, p1] → strTrim p1 ≠ "" →
      FilterLevel.fromStr (strTrim p1) = none → parseToken s = none) ∧
    parse_logging_spec "crate1::mod1=warn=info,crate2=debug" =
      ([{ name := some "crate2", level := FilterLevel.Debug }], none) ∧
    parse_logging_spec "crate1::mod1=noNumber,crate2=debug" =
      ([{ name := some "crate2", level := FilterLevel.Debug }], none) := by
  refine ⟨?_, ?_, by decide, by decide⟩
  · intro s h
    have hlen3 : 3 ≤ (strSplit '=' s).length := by
      rw [strSplit_length]
      omega
    have hne : ¬ s.length = 0 := by
      intro h0
      have hd : s.data = [] := List.length_eq_zero.mp h0
      rw [hd] at h
      simp at h
    unfold parseToken
    rw [if_neg hne]
    rcases hsp : strSplit '=' s with _ | ⟨a, _ | ⟨c, _ | ⟨u, t3⟩⟩⟩
    · simp [hsp] at hlen3
    · simp [hsp] at hlen3
    · simp [hsp] at hlen3
    · rfl
  · intro s p0 p1 hsp htrim hparse
    rw [parseToken_two s p0 p1 hsp, if_neg htrim, hparse]

/-- Witness for C6: the dropped token of the first example, through each of the two
general clauses. -/
theorem c6_malformed_tokens_dropped_witness :
    (2 ≤ "crate1::mod1=warn=info".data.count '=' ∧
      parseToken "crate1::mod1=warn=info" = none) ∧
    (strSplit '=' "crate1::mod1=noNumber" = ["crate1::mod1", "noNumber"] ∧
      parseToken "crate1::mod1=noNumber" = none) :=
  ⟨⟨by decide, c6_malformed_tokens_dropped.1 "crate1::mod1=warn=info" (by decide)⟩,
   ⟨by decide,
    c6_malformed_tokens_dropped.2.1 "crate1::mod1=noNumber" "crate1::mod1" "noNumber"
      (by decide) (by decide) (by decide)⟩⟩

/-- C7: a non-empty token without '=' yields the global directive `(None, level)`
when the whole token parses as a `FilterLevel` (name or integer rank), and
`(module = token, level = FilterLevel::max())` otherwise; a token of the form
`mod=` whose part after '=' trims to the empty string yields
`(module = mod, level = FilterLevel::max())`. -/
theorem c7_token_no_equals :
    (∀ (s : String) (lvl : FilterLevel), s ≠ "" → s.data.count '=' = 0 →
      FilterLevel.fromStr s = some lvl →
      parseToken s = some { name := none, level := lvl }) ∧
    (∀ s : String, s ≠ "" → s.data.count '=' = 0 → FilterLevel.fromStr s = none →
      parseToken s = some { name := some s, level := FilterLevel.max }) ∧
    (∀ s p0 p1 : String, strSplit '=' s = [p0, p1] → strTrim p1 = "" →
      parseToken s = some { name := some p0, level := FilterLevel.max }) := by
  refine ⟨?_, ?_, ?_⟩
  · intro s lvl hne hcount hp
    rw [parseToken_one s s hne (strSplit_of_count_zero '=' s hcount), hp]
  · intro s hne hcount hp
    rw [parseToken_one s s hne (strSplit_of_count_zero '=' s hcount), hp]
  · intro s p0 p1 hsp ht
    rw [parseToken_two s p0 p1 hsp, if_pos ht]

/-- Witness for C7: a bare level token, a bare module token, and an explicit
`module=` token. -/
theorem c7_token_no_equals_witness :
    parseToken "info" = some { name := none, level := FilterLevel.Info } ∧
    parseToken "crate1" = some { name := some "crate1", level := FilterLevel.max } ∧
    parseToken "crate2=" = some { name := some "crate2", level := FilterLevel.max } :=
  ⟨c7_token_no_equals.1 "info" FilterLevel.Info (by decide) (by decide) (by decide),
   c7_token_no_equals.2.1 "crate1" (by decide) (by decide) (by decide),
   c7_token_no_equals.2.2 "crate2=" "crate2" "" (by decide) (by decide)⟩

/-- C10: `LogBuilder::parse` appends the directives parsed from the given string to
the already-accumulated list, but unconditionally replaces the stored filter with
the filter parsed from that string; consequently a later `parse` whose spec has no
'/' segment leaves `filter = none`, discarding any filter installed earlier, while
the earlier directives are kept. -/
theorem c10_parse_appends_replaces_filter {T : Type} (b : LogBuilder T)
    (s s2 : String) :
    (b.parse s).directives = b.directives ++ (parse_logging_spec s).1 ∧
    (b.parse s).filter = (parse_logging_spec s).2 ∧
    (s2.data.count '/' = 0 → ((b.parse s).parse s2).filter = none) := by
  refine ⟨rfl, rfl, ?_⟩
  intro h
  show (parse_logging_spec s2).2 = none
  unfold parse_logging_spec
  rw [strSplit_of_count_zero '/' s2 h]

/-- Witness for C10: an earlier `parse` installs a filter, a later filterless
`parse` discards it (and, by `decide`, the earlier directives are kept). -/
theorem c10_parse_appends_replaces_filter_witness :
    ("y=info".data.count '/' = 0) ∧
    ((builderC10.parse "x=debug/pat").parse "y=info").filter = none ∧
    (builderC10.parse "x=debug/pat").filter = some { pattern := "pat" } ∧
    ((builderC10.parse "x=debug/pat").parse "y=info").directives =
      [{ name := some "x", level := FilterLevel.Debug },
       { name := some "y", level := FilterLevel.Info }] :=
  ⟨by decide,
   (c10_parse_appends_replaces_filter builderC10 "x=debug/pat" "y=info").2.2 (by decide),
   by decide, by decide⟩

end EnvLog
